import Mathlib

/-!
Verification of the taskctl epic/task state model
(`src/plugins/controllers/scripts/taskctl.py`).

The `.tasks/` directory store is embedded shallowly as a `Store` value:
each JSON record file becomes a structure in a list keyed by its filename
stem (which for tool-created files equals the record's `id`), each spec
markdown file becomes the presence of its id in a list, and each review
receipt file becomes a `Receipt` keyed by its filename stem.  A command
that calls `error(...)`, which prints and exits without writing, is
embedded as `Except.error msg`; a successful command returns the store
as it is on disk when the process exits.  `now_iso()` is threaded as an
explicit `now : String` argument.
-/

deriving instance DecidableEq for Except

namespace Taskctl

/-- Lexicographic comparison of character lists by code point, the order
Python uses to compare strings (`sorted`, `<`). -/
def charListLe : List Char → List Char → Bool
  | [], _ => true
  | _ :: _, [] => false
  | a :: as, b :: bs => if a < b then true else if b < a then false else charListLe as bs

/-- Python string `<=`: lexicographic by code point. -/
def strLe (a b : String) : Bool := charListLe a.data b.data

/-- Embeds `s.startswith(p)`, used for glob patterns such as `{epic_id}.*.json`. -/
def strStartsWith (p s : String) : Bool := p.data.isPrefixOf s.data

def EPIC_STATUSES : List String :=
  ["planning", "ready", "in_progress", "blocked", "done", "cancelled"]

def TASK_STATUSES : List String :=
  ["pending", "in_progress", "blocked", "done", "cancelled"]

def REVIEW_VERDICTS : List String := ["SHIP", "NEEDS_WORK", "MAJOR_RETHINK"]

/-- An epic record, `epics/<id>.json`. -/
structure Epic where
  id : String
  title : String
  status : String
  created_at : String
  updated_at : String
  complexity_score : Option Int
  task_count : Nat
  tasks_done : Nat
deriving Repr, DecidableEq

/-- A task record, `tasks/<id>.json`. -/
structure Task where
  id : String
  epic_id : String
  title : String
  status : String
  created_at : String
  updated_at : String
  started_at : Option String
  completed_at : Option String
  depends_on : List String
  blocked_by : Option String
  done_summary : Option String
deriving Repr, DecidableEq

/-- A review receipt, `reviews/<key>.json`; `key` is the filename stem
`task_id ++ "-" ++ safeTs timestamp`. -/
structure Receipt where
  key : String
  task_id : String
  epic_id : String
  verdict : String
  reviewer : String
  timestamp : String
  notes : String
  iteration : Nat
deriving Repr, DecidableEq

/-- The `.tasks/` directory.  `epicSpecs` and `taskSpecs` record which ids
have a spec markdown file (`specs/<id>.md` resp. `tasks/<id>.md`); the spec
bodies are opaque to the core.  `reviewsInit` records whether `reviews/`
exists.  Record files are kept in lists; the filesystem guarantees at most
one file per name, which theorems assume as `Nodup` hypotheses where it
matters. -/
structure Store where
  epics : List Epic
  epicSpecs : List String
  tasks : List Task
  taskSpecs : List String
  reviewsInit : Bool
  reviews : List Receipt
deriving Repr, DecidableEq

/-- Read `epics/<id>.json` if present. -/
def findEpic (s : Store) (id : String) : Option Epic :=
  s.epics.find? (fun e => e.id == id)

/-- Read `tasks/<id>.json` if present. -/
def findTask (s : Store) (id : String) : Option Task :=
  s.tasks.find? (fun t => t.id == id)

/-- The glob `tasks_dir.glob(f"{epic_id}.*.json")`: task record files whose
stem starts with the epic id followed by a dot. -/
def epicTaskFiles (s : Store) (epicId : String) : List Task :=
  s.tasks.filter (fun t => strStartsWith (epicId ++ ".") t.id)

/-- Parse a run of decimal digits (`int(...)` on a numeral); `none` models
the `ValueError` that makes the source skip the file or crash. -/
def parseNatAux : List Char → Nat → Option Nat
  | [], acc => some acc
  | c :: cs, acc =>
      if c.isDigit then parseNatAux cs (acc * 10 + (c.toNat - 48)) else none

def parseNatChars : List Char → Option Nat
  | [] => none
  | c :: cs => parseNatAux (c :: cs) 0

/-- The part after the last dot, `stem.rsplit(".", 1)[1]`, when a dot exists. -/
def lastDotSuffix (cs : List Char) : Option (List Char) :=
  if '.' ∈ cs then some ((cs.reverse.takeWhile (fun c => c ≠ '.')).reverse) else none

/-- The part before the last dot, `stem.rsplit(".", 1)[0]`. -/
def beforeLastDot (cs : List Char) : List Char :=
  (((cs.reverse.dropWhile (fun c => c ≠ '.')).drop 1)).reverse

/-- Task number encoded in a filename stem: the numeral after the last dot. -/
def taskNumOfStem (id : String) : Option Nat :=
  match lastDotSuffix id.data with
  | some ds => parseNatChars ds
  | none => none

/-- One step of the `max_num` scan of `get_next_task_number`: files whose
trailing component is not a numeral are skipped. -/
def taskNumStep (m : Nat) (t : Task) : Nat :=
  match taskNumOfStem t.id with
  | some n => max m n
  | none => m

/-- Embeds `get_next_task_number`: 1 + the maximum task number parsed from the
epic's currently existing task record files (0 when there are none). -/
def get_next_task_number (s : Store) (epicId : String) : Nat :=
  (epicTaskFiles s epicId).foldl taskNumStep 0 + 1

/-- Result of `parse_id`. -/
inductive ParsedId where
  | epic (id : String)
  | task (epicPart : String) (num : Nat)
deriving Repr, DecidableEq

/-- Embeds `parse_id`: an id with a dot is a task id whose trailing component must
be an integer (`none` models the uncaught `ValueError`); otherwise an epic id. -/
def parse_id (id : String) : Option ParsedId :=
  if '.' ∈ id.data then
    match lastDotSuffix id.data with
    | some suf =>
        match parseNatChars suf with
        | some n => some (ParsedId.task (String.mk (beforeLastDot id.data)) n)
        | none => none
    | none => none
  else some (ParsedId.epic id)

/-- Python truthiness of an optional CLI string: `None` and `""` are falsy. -/
def optStrTruthy : Option String → Bool
  | none => false
  | some s => !(s == "")

/-- Embeds `write_json` on a record file: replace the file with this name, or
create it. -/
def putTask (ts : List Task) (t : Task) : List Task :=
  if ts.any (fun u => u.id == t.id) then ts.map (fun u => if u.id == t.id then t else u)
  else ts ++ [t]

/-- Embeds `write_text` on a spec file: create it if missing. -/
def putName (xs : List String) (x : String) : List String :=
  if xs.contains x then xs else xs ++ [x]

/-- Embeds `update_epic_task_counts`: if the epic record exists, rescan the epic's
task files and store the total and done counts, stamping `updated_at`;
otherwise do nothing. -/
def update_epic_task_counts (s : Store) (epicId : String) (now : String) : Store :=
  match findEpic s epicId with
  | none => s
  | some _ =>
      let ts := epicTaskFiles s epicId
      let total := ts.length
      let done := (ts.filter (fun t => t.status == "done")).length
      { s with epics := s.epics.map (fun e =>
          if e.id == epicId then
            { e with task_count := total, tasks_done := done, updated_at := now }
          else e) }

/-- Embeds `cmd_task_create`. -/
def cmd_task_create (s : Store) (epicId title now : String) :
    Except String (Store × String) :=
  if (findEpic s epicId).isNone then Except.error ("Epic not found: " ++ epicId)
  else
    let n := get_next_task_number s epicId
    let taskId := epicId ++ "." ++ toString n
    let t : Task := {
      id := taskId, epic_id := epicId, title := title, status := "pending",
      created_at := now, updated_at := now, started_at := none,
      completed_at := none, depends_on := [], blocked_by := none,
      done_summary := none }
    let s1 := { s with tasks := putTask s.tasks t, taskSpecs := putName s.taskSpecs taskId }
    Except.ok (update_epic_task_counts s1 epicId now, taskId)

/-- Embeds `cmd_task_show` (`--json`): the record, or a not-found error. -/
def cmd_task_show (s : Store) (id : String) : Except String Task :=
  match findTask s id with
  | none => Except.error ("Task not found: " ++ id)
  | some t => Except.ok t

/-- Embeds `cmd_task_cat`: succeeds exactly when the task spec file exists. -/
def cmd_task_cat (s : Store) (id : String) : Except String Unit :=
  if s.taskSpecs.contains id then Except.ok ()
  else Except.error ("Task spec not found: " ++ id)

/-- Embeds `cmd_task_start`: unconditionally set `in_progress` and stamp
`started_at` and `updated_at`.  No epic-count recomputation is performed. -/
def cmd_task_start (s : Store) (id now : String) : Except String Store :=
  if (findTask s id).isNone then Except.error ("Task not found: " ++ id)
  else Except.ok { s with tasks := s.tasks.map (fun t =>
    if t.id == id then
      { t with status := "in_progress", started_at := some now, updated_at := now }
    else t) }

/-- Embeds `cmd_task_done`: set `done`, stamp `completed_at` and `updated_at`,
record the summary only when it is truthy, then recompute epic counts. -/
def cmd_task_done (s : Store) (id : String) (summary : Option String) (now : String) :
    Except String Store :=
  match findTask s id with
  | none => Except.error ("Task not found: " ++ id)
  | some t0 =>
      let t1 := { t0 with
        status := "done", completed_at := some now, updated_at := now,
        done_summary := if optStrTruthy summary then summary else t0.done_summary }
      let s1 := { s with tasks := s.tasks.map (fun t => if t.id == id then t1 else t) }
      Except.ok (update_epic_task_counts s1 t0.epic_id now)

/-- Embeds `cmd_task_block`: requires a truthy reason; sets `blocked` and
`blocked_by`.  No epic-count recomputation is performed. -/
def cmd_task_block (s : Store) (id : String) (reason : Option String) (now : String) :
    Except String Store :=
  match findTask s id with
  | none => Except.error ("Task not found: " ++ id)
  | some _ =>
      if !(optStrTruthy reason) then Except.error "--reason is required"
      else Except.ok { s with tasks := s.tasks.map (fun t =>
        if t.id == id then
          { t with status := "blocked", blocked_by := reason, updated_at := now }
        else t) }

/-- Embeds `cmd_task_set_status`: validate the status against the vocabulary
before touching the store, then write the status and recompute epic counts. -/
def cmd_task_set_status (s : Store) (id st now : String) : Except String Store :=
  if !(TASK_STATUSES.contains st) then
    Except.error ("Invalid status. Must be one of: " ++ String.intercalate ", " TASK_STATUSES)
  else
    match findTask s id with
    | none => Except.error ("Task not found: " ++ id)
    | some t0 =>
        let s1 := { s with tasks := s.tasks.map (fun t =>
          if t.id == id then { t with status := st, updated_at := now } else t) }
        Except.ok (update_epic_task_counts s1 t0.epic_id now)

/-- Embeds `cmd_task_delete`: remove the task record and its spec file, then
recompute the owning epic's counts. -/
def cmd_task_delete (s : Store) (id now : String) : Except String Store :=
  match findTask s id with
  | none => Except.error ("Task not found: " ++ id)
  | some t0 =>
      let s1 := { s with
        tasks := s.tasks.filter (fun u => !(u.id == id)),
        taskSpecs := s.taskSpecs.filter (fun x => !(x == id)) }
      Except.ok (update_epic_task_counts s1 t0.epic_id now)

/-- Dependency check of `cmd_task_ready` / `cmd_next`: every id in
`depends_on` must be found among the given tasks with status `done`. -/
def depsResolved (tasks : List Task) (t : Task) : Bool :=
  t.depends_on.all (fun dep =>
    match tasks.find? (fun u => u.id == dep) with
    | some u => u.status == "done"
    | none => false)

/-- Embeds `cmd_task_ready`: ids of the epic's pending tasks whose dependencies
are all done, printed in sorted order. -/
def cmd_task_ready (s : Store) (epicId : String) : List String :=
  let tasks := epicTaskFiles s epicId
  ((tasks.filter (fun t => t.status == "pending" && depsResolved tasks t)).map
    (fun t => t.id)).mergeSort strLe

/-- Embeds `cmd_epic_set_status`. -/
def cmd_epic_set_status (s : Store) (id st now : String) : Except String Store :=
  if !(EPIC_STATUSES.contains st) then
    Except.error ("Invalid status. Must be one of: " ++ String.intercalate ", " EPIC_STATUSES)
  else if (findEpic s id).isNone then Except.error ("Epic not found: " ++ id)
  else Except.ok { s with epics := s.epics.map (fun e =>
    if e.id == id then { e with status := st, updated_at := now } else e) }

/-- Embeds `cmd_epic_delete`: remove the epic record, its spec file, and every
task record and task spec file matching the globs `{id}.*.json` and
`{id}.*.md`. -/
def cmd_epic_delete (s : Store) (id : String) : Except String Store :=
  if (findEpic s id).isNone then Except.error ("Epic not found: " ++ id)
  else Except.ok { s with
    epics := s.epics.filter (fun e => !(e.id == id)),
    epicSpecs := s.epicSpecs.filter (fun x => !(x == id)),
    tasks := s.tasks.filter (fun t => !(strStartsWith (id ++ ".") t.id)),
    taskSpecs := s.taskSpecs.filter (fun x => !(strStartsWith (id ++ ".") x)) }

/-- Embeds `cmd_epic_show` (`--json`). -/
def cmd_epic_show (s : Store) (id : String) : Except String Epic :=
  match findEpic s id with
  | none => Except.error ("Epic not found: " ++ id)
  | some e => Except.ok e

/-- Embeds `cmd_epic_cat`: succeeds exactly when the epic spec file exists. -/
def cmd_epic_cat (s : Store) (id : String) : Except String Unit :=
  if s.epicSpecs.contains id then Except.ok ()
  else Except.error ("Epic spec not found: " ++ id)

/-- Sort task records in the id order their filenames give to `sorted(...)`. -/
def sortTasksById (ts : List Task) : List Task :=
  ts.mergeSort (fun a b => strLe a.id b.id)

/-- Sort epic records likewise. -/
def sortEpicsById (es : List Epic) : List Epic :=
  es.mergeSort (fun a b => strLe a.id b.id)

/-- The glob `ca-*.json` over task files. -/
def caTasks (ts : List Task) : List Task :=
  ts.filter (fun t => strStartsWith "ca-" t.id)

/-- The glob `ca-*.json` over epic files. -/
def caEpics (es : List Epic) : List Epic :=
  es.filter (fun e => strStartsWith "ca-" e.id)

/-- Tier 2 of `cmd_next`: over the (sorted) epic files, for the first epic
with status `ready` or `in_progress` scan its tasks in sorted id order for
a pending task with resolved dependencies. -/
def findReadyInEpics (s : Store) : List Epic → Option String
  | [] => none
  | e :: rest =>
      if e.status == "ready" || e.status == "in_progress" then
        let ts := epicTaskFiles s e.id
        match (sortTasksById ts).find?
            (fun t => t.status == "pending" && depsResolved ts t) with
        | some t => some t.id
        | none => findReadyInEpics s rest
      else findReadyInEpics s rest

/-- Embeds `cmd_next`: first in-progress task; else first ready task of an
eligible epic; else first planning epic; else nothing.  A pure read. -/
def cmd_next (s : Store) : Option String :=
  match (sortTasksById (caTasks s.tasks)).find? (fun t => t.status == "in_progress") with
  | some t => some (t.id ++ " (in_progress)")
  | none =>
      match findReadyInEpics s (sortEpicsById (caEpics s.epics)) with
      | some tid => some (tid ++ " (ready)")
      | none =>
          match (sortEpicsById (caEpics s.epics)).find? (fun e => e.status == "planning") with
          | some e => some (e.id ++ " (needs_planning)")
          | none => none

/-- Embeds `timestamp.replace(":", "-").replace("T", "_").replace("Z", "")`. -/
def safeTsChars : List Char → List Char
  | [] => []
  | c :: cs =>
      if c = ':' then '-' :: safeTsChars cs
      else if c = 'T' then '_' :: safeTsChars cs
      else if c = 'Z' then safeTsChars cs
      else c :: safeTsChars cs

def safeTs (ts : String) : String := String.mk (safeTsChars ts.data)

/-- Embeds `write_json` on a receipt file. -/
def putReceipt (rs : List Receipt) (r : Receipt) : List Receipt :=
  if rs.any (fun x => x.key == r.key) then rs.map (fun x => if x.key == r.key then r else x)
  else rs ++ [r]

/-- Embeds `get_review_iteration`: 1 + the number of receipt files matching the
glob `{task_id}-*.json`; 1 when `reviews/` does not exist. -/
def get_review_iteration (s : Store) (taskId : String) : Nat :=
  if !s.reviewsInit then 1
  else (s.reviews.filter (fun r => strStartsWith (taskId ++ "-") r.key)).length + 1

/-- Embeds `cmd_review_count`: prints `0` when `reviews/` does not exist, else the
next iteration number. -/
def cmd_review_count (s : Store) (taskId : String) : String :=
  if !s.reviewsInit then "0" else toString (get_review_iteration s taskId)

/-- Embeds `args.verdict.upper()`. -/
def upperStr (v : String) : String := String.mk (v.data.map Char.toUpper)

/-- Embeds `cmd_review_log`: validate the system, the verdict (upper-cased) and
the task id, then write a receipt carrying the next iteration number. -/
def cmd_review_log (s : Store) (taskId verdictRaw : String) (notes : Option String)
    (now : String) : Except String Store :=
  if !s.reviewsInit then
    Except.error "Review system not initialized. Run taskctl review init first."
  else if !(REVIEW_VERDICTS.contains (upperStr verdictRaw)) then
    Except.error ("Invalid verdict. Must be one of: " ++ String.intercalate ", " REVIEW_VERDICTS)
  else
    match parse_id taskId with
    | some (ParsedId.task epicPart _) =>
        Except.ok { s with reviews := putReceipt s.reviews {
          key := taskId ++ "-" ++ safeTs now, task_id := taskId, epic_id := epicPart,
          verdict := upperStr verdictRaw, reviewer := "qa-auditor", timestamp := now,
          notes := notes.getD "", iteration := get_review_iteration s taskId } }
    | some (ParsedId.epic _) => Except.error ("Expected task ID, got epic ID: " ++ taskId)
    | none => Except.error ("Invalid task ID: " ++ taskId)

/-- The persisted state after running a command: a command that fails exits
before writing, leaving the store as it was. -/
def stepOr (s : Store) (r : Except String Store) : Store :=
  match r with
  | Except.ok s' => s'
  | Except.error _ => s

/-- Whether a command succeeded (exit code 0). -/
def exceptOk {ε α : Type} : Except ε α → Bool
  | Except.ok _ => true
  | Except.error _ => false

/-- Spec-side measure for aggregation: live tasks whose `epic_id` field
names the epic. -/
def liveCountByEpic (s : Store) (epicId : String) : Nat :=
  (s.tasks.filter (fun t => t.epic_id == epicId)).length

/-- Spec-side measure: those of them whose status is `done`. -/
def doneCountByEpic (s : Store) (epicId : String) : Nat :=
  ((s.tasks.filter (fun t => t.epic_id == epicId)).filter
    (fun t => t.status == "done")).length

/-- Spec-side aggregation invariant for one epic: every stored record for
it carries the live counts. -/
def countsMatchE (s : Store) (E : String) : Prop :=
  ∀ e ∈ s.epics, e.id = E →
    e.task_count = liveCountByEpic s E ∧ e.tasks_done = doneCountByEpic s E

/-- Spec-side tier 2: scan the (already eligibility-filtered, id-ordered)
epics and return the first entry of the first nonempty resolver output. -/
def readyEpicScan (s : Store) : List Epic → Option String
  | [] => none
  | e :: rest =>
      match (cmd_task_ready s e.id).head? with
      | some tid => some tid
      | none => readyEpicScan s rest

/-- The next-unit policy as the spec words it: tier 1 the lexicographically
first id of an in-progress task across all epics; tier 2 the first task the
dependency resolver marks ready, scanning eligible epics in ascending id
order; tier 3 the first planning epic. -/
def nextSpec (s : Store) : Option String :=
  match (((s.tasks.filter (fun t => t.status == "in_progress")).map
      (fun t => t.id)).mergeSort strLe).head? with
  | some tid => some (tid ++ " (in_progress)")
  | none =>
      match readyEpicScan s
          ((sortEpicsById s.epics).filter
            (fun e => e.status == "ready" || e.status == "in_progress")) with
      | some tid => some (tid ++ " (ready)")
      | none =>
          match (((s.epics.filter (fun e => e.status == "planning")).map
              (fun e => e.id)).mergeSort strLe).head? with
          | some eid => some (eid ++ " (needs_planning)")
          | none => none

/-! ## Properties of the lexicographic order -/

theorem charListLe_total : ∀ as bs : List Char, (charListLe as bs || charListLe bs as) = true
  | [], bs => by simp [charListLe]
  | a :: as, [] => by simp [charListLe]
  | a :: as, b :: bs => by
      by_cases h1 : a < b
      · simp [charListLe, h1]
      · by_cases h2 : b < a
        · simp [charListLe, h1, h2]
        · have hab : a = b := le_antisymm (not_lt.mp h2) (not_lt.mp h1)
          subst hab
          simpa [charListLe, h1] using charListLe_total as bs

theorem charListLe_trans :
    ∀ {as bs cs : List Char}, charListLe as bs = true → charListLe bs cs = true →
      charListLe as cs = true
  | [], _, _, _, _ => by simp [charListLe]
  | a :: as, [], _, h1, _ => by simp [charListLe] at h1
  | a :: as, b :: bs, [], _, h2 => by simp [charListLe] at h2
  | a :: as, b :: bs, c :: cs, h1, h2 => by
      by_cases hab : a < b
      · by_cases hbc : b < c
        · simp [charListLe, lt_trans hab hbc]
        · by_cases hcb : c < b
          · simp [charListLe, hbc, hcb] at h2
          · have : b = c := le_antisymm (not_lt.mp hcb) (not_lt.mp hbc)
            subst this
            simp [charListLe, hab]
      · by_cases hba : b < a
        · simp [charListLe, hab, hba] at h1
        · have : a = b := le_antisymm (not_lt.mp hba) (not_lt.mp hab)
          subst this
          simp only [charListLe, lt_irrefl, if_false] at h1
          by_cases hac : a < c
          · simp [charListLe, hac]
          · by_cases hca : c < a
            · simp [charListLe, hac, hca] at h2
            · have : a = c := le_antisymm (not_lt.mp hca) (not_lt.mp hac)
              subst this
              simp only [charListLe, lt_irrefl, if_false] at h2 ⊢
              exact charListLe_trans h1 h2

theorem charListLe_antisymm :
    ∀ {as bs : List Char}, charListLe as bs = true → charListLe bs as = true → as = bs
  | [], [], _, _ => rfl
  | [], _ :: _, _, h2 => by simp [charListLe] at h2
  | _ :: _, [], h1, _ => by simp [charListLe] at h1
  | a :: as, b :: bs, h1, h2 => by
      by_cases hab : a < b
      · simp [charListLe, hab, asymm hab] at h2
      · by_cases hba : b < a
        · simp [charListLe, hab, hba] at h1
        · have : a = b := le_antisymm (not_lt.mp hba) (not_lt.mp hab)
          subst this
          simp only [charListLe, lt_irrefl, if_false] at h1 h2
          rw [charListLe_antisymm h1 h2]

theorem strLe_total (a b : String) : (strLe a b || strLe b a) = true :=
  charListLe_total a.data b.data

theorem strLe_trans {a b c : String} (h1 : strLe a b = true) (h2 : strLe b c = true) :
    strLe a c = true :=
  charListLe_trans h1 h2

theorem strLe_antisymm {a b : String} (h1 : strLe a b = true) (h2 : strLe b a = true) :
    a = b := by
  have h3 : a.data = b.data := charListLe_antisymm h1 h2
  cases a with
  | mk da =>
      cases b with
      | mk db => exact congrArg String.mk (by simpa using h3)

/-! ## Generic list lemmas -/

theorem find?_eq_head?_filter {α : Type} (p : α → Bool) :
    ∀ l : List α, l.find? p = (l.filter p).head?
  | [] => rfl
  | a :: l => by
      by_cases h : p a = true
      · rw [List.find?_cons_of_pos _ h, List.filter_cons_of_pos h]
        rfl
      · rw [List.find?_cons_of_neg _ (by simp [h]), List.filter_cons_of_neg (by simp [h]),
          find?_eq_head?_filter p l]

/-- Sorting by a string key then filtering and projecting gives the same
list as filtering, projecting and sorting the keys. -/
theorem mergeSort_filter_map {α : Type} (key : α → String) (l : List α) (p : α → Bool) :
    ((l.mergeSort (fun a b => strLe (key a) (key b))).filter p).map key
      = ((l.filter p).map key).mergeSort strLe := by
  haveI : IsAntisymm String (fun a b : String => strLe a b = true) := ⟨fun _ _ => strLe_antisymm⟩
  have hperm : (((l.mergeSort (fun a b => strLe (key a) (key b))).filter p).map key).Perm
      (((l.filter p).map key).mergeSort strLe) :=
    (((List.mergeSort_perm l _).filter p).map key).trans (List.mergeSort_perm _ strLe).symm
  have hs1 : (((l.mergeSort (fun a b => strLe (key a) (key b))).filter p).map key).Pairwise
      (fun a b : String => strLe a b = true) := by
    refine (List.pairwise_map).mpr ?_
    refine List.Pairwise.filter p ?_
    have h := @List.sorted_mergeSort α (fun a b => strLe (key a) (key b))
      (fun a b c hab hbc => strLe_trans hab hbc)
      (fun a b => strLe_total (key a) (key b)) l
    simpa using h
  have hs2 : (((l.filter p).map key).mergeSort strLe).Pairwise
      (fun a b : String => strLe a b = true) := by
    have h := @List.sorted_mergeSort String strLe
      (fun a b c hab hbc => strLe_trans hab hbc)
      (fun a b => strLe_total a b) ((l.filter p).map key)
    simpa using h
  exact List.eq_of_perm_of_sorted hperm hs1 hs2

/-- Applying `find?` over a key-sorted list, projected to the key, is the head of
the sorted projected filtered list. -/
theorem mergeSort_find_map {α : Type} (key : α → String) (l : List α) (p : α → Bool) :
    ((l.mergeSort (fun a b => strLe (key a) (key b))).find? p).map key
      = (((l.filter p).map key).mergeSort strLe).head? := by
  rw [find?_eq_head?_filter, ← List.head?_map, mergeSort_filter_map]

/-! ## Small facts about the embedding -/

theorem strData_append (a b : String) : (a ++ b).data = a.data ++ b.data := rfl

theorem strStartsWith_self_append (p q : String) : strStartsWith p (p ++ q) = true := by
  simp [strStartsWith, strData_append]

theorem strAppend_left_cancel {p a b : String} (h : p ++ a = p ++ b) : a = b := by
  cases a with
  | mk da =>
      cases b with
      | mk db =>
          have : p.data ++ da = p.data ++ db := by
            have := congrArg String.data h
            simpa [strData_append] using this
          simp [List.append_cancel_left this]

theorem update_epic_task_counts_tasks (s : Store) (E now : String) :
    (update_epic_task_counts s E now).tasks = s.tasks := by
  unfold update_epic_task_counts
  cases findEpic s E <;> rfl

theorem update_epic_task_counts_taskSpecs (s : Store) (E now : String) :
    (update_epic_task_counts s E now).taskSpecs = s.taskSpecs := by
  unfold update_epic_task_counts
  cases findEpic s E <;> rfl

theorem nodup_epicTaskFiles (s : Store) (e : String)
    (h : (s.tasks.map Task.id).Nodup) : ((epicTaskFiles s e).map Task.id).Nodup :=
  List.Nodup.sublist ((List.filter_sublist s.tasks).map Task.id) h

/-- Under distinct task ids, the dependency check of the source is the
spec's condition: every dependency id names a task of the set whose status
is done. -/
theorem depsResolved_iff (tasks : List Task) (hnd : (tasks.map Task.id).Nodup) (t : Task) :
    depsResolved tasks t = true ↔
      ∀ dep ∈ t.depends_on, ∃ u ∈ tasks, u.id = dep ∧ u.status = "done" := by
  unfold depsResolved
  rw [List.all_eq_true]
  constructor
  · intro h dep hdep
    have hd := h dep hdep
    cases hf : tasks.find? (fun u => u.id == dep) with
    | none => rw [hf] at hd; simp at hd
    | some u =>
        rw [hf] at hd
        refine ⟨u, List.mem_of_find?_eq_some hf, ?_, ?_⟩
        · simpa using List.find?_some hf
        · simpa using hd
  · intro h dep hdep
    obtain ⟨u, hu, huid, hust⟩ := h dep hdep
    cases hf : tasks.find? (fun u => u.id == dep) with
    | none =>
        rw [List.find?_eq_none] at hf
        exact absurd (by simpa using huid) (by simpa using hf u hu)
    | some v =>
        have hv : v ∈ tasks := List.mem_of_find?_eq_some hf
        have hvid : v.id = dep := by simpa using List.find?_some hf
        have huv : u = v := List.inj_on_of_nodup_map hnd hu hv (by rw [huid, hvid])
        subst huv
        simp [hust]

/-- C1: `task ready --epic` returns exactly the epic's pending tasks all of
whose dependency ids name an existing task of the set with status done (an
unresolvable dependency id disqualifies), sorted lexicographically by id. -/
theorem C1_task_ready_correct (s : Store) (e : String)
    (hnd : (s.tasks.map Task.id).Nodup) :
    (∀ id, id ∈ cmd_task_ready s e ↔
      ∃ t ∈ epicTaskFiles s e, t.id = id ∧ t.status = "pending" ∧
        ∀ dep ∈ t.depends_on, ∃ u ∈ epicTaskFiles s e, u.id = dep ∧ u.status = "done") ∧
    (cmd_task_ready s e).Pairwise (fun a b => strLe a b = true) := by
  have hnd' := nodup_epicTaskFiles s e hnd
  constructor
  · intro id
    unfold cmd_task_ready
    rw [List.mem_mergeSort]
    constructor
    · intro h
      obtain ⟨t, ht, rfl⟩ := List.mem_map.mp h
      obtain ⟨ht1, ht2⟩ := List.mem_filter.mp ht
      rw [Bool.and_eq_true] at ht2
      exact ⟨t, ht1, rfl, by simpa using ht2.1, (depsResolved_iff _ hnd' t).mp ht2.2⟩
    · rintro ⟨t, ht, rfl, hst, hdeps⟩
      refine List.mem_map.mpr ⟨t, List.mem_filter.mpr ⟨ht, ?_⟩, rfl⟩
      rw [Bool.and_eq_true]
      exact ⟨by simpa using hst, (depsResolved_iff _ hnd' t).mpr hdeps⟩
  · unfold cmd_task_ready
    have hs := @List.sorted_mergeSort String strLe
      (fun a b c hab hbc => strLe_trans hab hbc) (fun a b => strLe_total a b)
      (((epicTaskFiles s e).filter
        (fun t => t.status == "pending" && depsResolved (epicTaskFiles s e) t)).map
        (fun t => t.id))
    simpa using hs

def w1Epic : Epic := {
  id := "ca-1-abc", title := "Checkout redesign", status := "ready",
  created_at := "2026-01-01T00:00:00Z", updated_at := "2026-01-01T00:00:00Z",
  complexity_score := none, task_count := 3, tasks_done := 1 }

def w1Task1 : Task := {
  id := "ca-1-abc.1", epic_id := "ca-1-abc", title := "first", status := "done",
  created_at := "t0", updated_at := "t1", started_at := some "t1",
  completed_at := some "t1", depends_on := [], blocked_by := none,
  done_summary := none }

def w1Task2 : Task := {
  id := "ca-1-abc.2", epic_id := "ca-1-abc", title := "second", status := "pending",
  created_at := "t0", updated_at := "t0", started_at := none,
  completed_at := none, depends_on := ["ca-1-abc.1"], blocked_by := none,
  done_summary := none }

def w1Task3 : Task := {
  id := "ca-1-abc.3", epic_id := "ca-1-abc", title := "third", status := "pending",
  created_at := "t0", updated_at := "t0", started_at := none,
  completed_at := none, depends_on := ["ca-1-abc.9"], blocked_by := none,
  done_summary := none }

def w1Store : Store := {
  epics := [w1Epic], epicSpecs := ["ca-1-abc"],
  tasks := [w1Task1, w1Task2, w1Task3],
  taskSpecs := ["ca-1-abc.1", "ca-1-abc.2", "ca-1-abc.3"],
  reviewsInit := false, reviews := [] }

/-- C1 witness: on a concrete store the hypothesis holds; the task whose
one dependency is done is in the ready list, and the output is sorted. -/
theorem C1_task_ready_correct_witness :
    (w1Store.tasks.map Task.id).Nodup ∧
    "ca-1-abc.2" ∈ cmd_task_ready w1Store "ca-1-abc" ∧
    (cmd_task_ready w1Store "ca-1-abc").Pairwise (fun a b => strLe a b = true) := by
  refine ⟨by decide, ?_, (C1_task_ready_correct w1Store "ca-1-abc" (by decide)).2⟩
  refine ((C1_task_ready_correct w1Store "ca-1-abc" (by decide)).1 "ca-1-abc.2").mpr ?_
  refine ⟨w1Task2, by decide, by decide, by decide, ?_⟩
  intro dep hdep
  have hd : dep = "ca-1-abc.1" := by
    have : dep ∈ ["ca-1-abc.1"] := hdep
    simpa using this
  subst hd
  exact ⟨w1Task1, by decide, by decide, by decide⟩

/-! ## C2: aggregation -/

theorem putTask_mem {ts : List Task} {t u : Task} (h : u ∈ putTask ts t) : u ∈ ts ∨ u = t := by
  unfold putTask at h
  by_cases ha : ts.any (fun v => v.id == t.id)
  · rw [if_pos ha] at h
    obtain ⟨v, hv, hvu⟩ := List.mem_map.mp h
    by_cases hvt : v.id == t.id
    · rw [if_pos hvt] at hvu
      right
      exact hvu.symm
    · rw [if_neg hvt] at hvu
      left
      exact hvu ▸ hv
  · rw [if_neg ha] at h
    rcases List.mem_append.mp h with h1 | h1
    · left
      exact h1
    · right
      simpa using h1

/-- When the glob over filenames and the `epic_id` field agree (true for
tool-created stores), the rescan counts equal the spec's measures. -/
theorem counts_glob_eq (s : Store) (E : String)
    (hglob : ∀ t ∈ s.tasks, (strStartsWith (E ++ ".") t.id = true ↔ t.epic_id = E)) :
    (epicTaskFiles s E).length = liveCountByEpic s E ∧
    ((epicTaskFiles s E).filter (fun t => t.status == "done")).length = doneCountByEpic s E := by
  have hfe : s.tasks.filter (fun t => strStartsWith (E ++ ".") t.id)
      = s.tasks.filter (fun t => t.epic_id == E) := by
    apply List.filter_congr
    intro t ht
    have h2 : (strStartsWith (E ++ ".") t.id = true) ↔ ((t.epic_id == E) = true) := by
      rw [beq_iff_eq]
      exact hglob t ht
    cases hb : strStartsWith (E ++ ".") t.id
    · cases hb2 : (t.epic_id == E)
      · rfl
      · rw [hb, hb2] at h2
        simp at h2
    · cases hb2 : (t.epic_id == E)
      · rw [hb, hb2] at h2
        simp at h2
      · rfl
  constructor
  · unfold epicTaskFiles liveCountByEpic
    rw [hfe]
  · unfold epicTaskFiles doneCountByEpic
    rw [hfe]

/-- Running `update_epic_task_counts` establishes the aggregation invariant for the
epic it is called on (and is a no-op when the epic record is missing). -/
theorem counts_after_update (s : Store) (E now : String)
    (hglob : ∀ t ∈ s.tasks, (strStartsWith (E ++ ".") t.id = true ↔ t.epic_id = E)) :
    countsMatchE (update_epic_task_counts s E now) E := by
  intro e he hid
  have htasks : (update_epic_task_counts s E now).tasks = s.tasks :=
    update_epic_task_counts_tasks s E now
  have hlive : liveCountByEpic (update_epic_task_counts s E now) E = liveCountByEpic s E := by
    unfold liveCountByEpic
    rw [htasks]
  have hdone : doneCountByEpic (update_epic_task_counts s E now) E = doneCountByEpic s E := by
    unfold doneCountByEpic
    rw [htasks]
  rw [hlive, hdone]
  unfold update_epic_task_counts at he
  cases hfe : findEpic s E with
  | none =>
      rw [hfe] at he
      have hne := List.find?_eq_none.mp hfe e he
      exact absurd (by simpa using hid) (by simpa using hne)
  | some e0 =>
      rw [hfe] at he
      simp only [List.mem_map] at he
      obtain ⟨e1, _, hmap⟩ := he
      obtain ⟨hc1, hc2⟩ := counts_glob_eq s E hglob
      by_cases h1 : e1.id == E
      · rw [if_pos h1] at hmap
        rw [← hmap]
        exact ⟨hc1, hc2⟩
      · rw [if_neg h1] at hmap
        rw [← hmap] at hid
        exact absurd (by simpa using hid) (by simpa using h1)

/-- C2 as the code has it: the rescan runs after create, done, set-status
and delete — but `start` and `block` skip it, so the claim is amended to
those four mutations; the rescan is a no-op when the epic record is gone. -/
theorem C2_aggregation_after_mutations (s : Store) (now E : String)
    (hglob : ∀ t ∈ s.tasks, (strStartsWith (E ++ ".") t.id = true ↔ t.epic_id = E)) :
    (findEpic s E = none → update_epic_task_counts s E now = s) ∧
    (∀ title s' tid, cmd_task_create s E title now = Except.ok (s', tid) →
      countsMatchE s' E) ∧
    (∀ id summ s' t0, findTask s id = some t0 → t0.epic_id = E →
      cmd_task_done s id summ now = Except.ok s' → countsMatchE s' E) ∧
    (∀ id st s' t0, findTask s id = some t0 → t0.epic_id = E →
      cmd_task_set_status s id st now = Except.ok s' → countsMatchE s' E) ∧
    (∀ id s' t0, findTask s id = some t0 → t0.epic_id = E →
      cmd_task_delete s id now = Except.ok s' → countsMatchE s' E) ∧
    (∀ id now2 s', cmd_task_start s id now2 = Except.ok s' → s'.epics = s.epics) ∧
    (∀ id reason s', cmd_task_block s id reason now = Except.ok s' → s'.epics = s.epics) := by
  refine ⟨?_, ?_, ?_, ?_, ?_, ?_, ?_⟩
  · intro h
    unfold update_epic_task_counts
    rw [h]
  · intro title s' tid h
    by_cases hfe : (findEpic s E).isNone
    · rw [cmd_task_create, if_pos hfe] at h
      exact absurd h (by simp)
    · rw [cmd_task_create, if_neg hfe] at h
      simp only [Except.ok.injEq, Prod.mk.injEq] at h
      obtain ⟨h1, _⟩ := h
      rw [← h1]
      apply counts_after_update
      intro t ht
      simp only at ht
      rcases putTask_mem ht with hmem | rfl
      · exact hglob t hmem
      · simp [strStartsWith_self_append]
  · intro id summ s' t0 hft hE h
    subst hE
    rw [cmd_task_done, hft] at h
    simp only [Except.ok.injEq] at h
    rw [← h]
    apply counts_after_update
    intro t ht
    simp only [List.mem_map] at ht
    obtain ⟨u, hu, hmap⟩ := ht
    have ht0 : t0 ∈ s.tasks := List.mem_of_find?_eq_some hft
    by_cases hui : u.id == id
    · rw [if_pos hui] at hmap
      rw [← hmap]
      exact hglob t0 ht0
    · rw [if_neg hui] at hmap
      rw [← hmap]
      exact hglob u hu
  · intro id st s' t0 hft hE h
    subst hE
    rw [cmd_task_set_status] at h
    split at h
    · exact absurd h (by simp)
    · rw [hft] at h
      simp only [Except.ok.injEq] at h
      rw [← h]
      apply counts_after_update
      intro t ht
      simp only [List.mem_map] at ht
      obtain ⟨u, hu, hmap⟩ := ht
      by_cases hui : u.id == id
      · rw [if_pos hui] at hmap
        rw [← hmap]
        exact hglob u hu
      · rw [if_neg hui] at hmap
        rw [← hmap]
        exact hglob u hu
  · intro id s' t0 hft hE h
    subst hE
    rw [cmd_task_delete, hft] at h
    simp only [Except.ok.injEq] at h
    rw [← h]
    apply counts_after_update
    intro t ht
    simp only [List.mem_filter] at ht
    exact hglob t ht.1
  · intro id now2 s' h
    by_cases hft : (findTask s id).isNone
    · rw [cmd_task_start, if_pos hft] at h
      exact absurd h (by simp)
    · rw [cmd_task_start, if_neg hft] at h
      simp only [Except.ok.injEq] at h
      rw [← h]
  · intro id reason s' h
    cases hft : findTask s id with
    | none =>
        rw [cmd_task_block, hft] at h
        exact absurd h (by simp)
    | some t0 =>
        rw [cmd_task_block, hft] at h
        by_cases hr : optStrTruthy reason
        · rw [if_neg (by simp [hr])] at h
          simp only [Except.ok.injEq] at h
          rw [← h]
        · rw [if_pos (by simp [hr])] at h
          exact absurd h (by simp)

def c2Epic : Epic := {
  id := "ca-1-abc", title := "E", status := "in_progress",
  created_at := "t0", updated_at := "t0", complexity_score := none,
  task_count := 1, tasks_done := 1 }

def c2Task : Task := {
  id := "ca-1-abc.1", epic_id := "ca-1-abc", title := "a", status := "done",
  created_at := "t0", updated_at := "t0", started_at := some "t0",
  completed_at := some "t0", depends_on := [], blocked_by := none,
  done_summary := none }

def c2Store : Store := {
  epics := [c2Epic], epicSpecs := ["ca-1-abc"], tasks := [c2Task],
  taskSpecs := ["ca-1-abc.1"], reviewsInit := false, reviews := [] }

/-- C2 counterexample: starting a previously-done task is a successful task
status change, but the owning epic still records `tasks_done = 1` while the
live task set has no done task — `cmd_task_start` never recomputes counts,
contradicting the claim for the mutations `start` (and likewise `block`). -/
theorem C2_start_skips_aggregation_cex :
    (cmd_task_start c2Store "ca-1-abc.1" "t1").toOption.map
      (fun s' => ((findEpic s' "ca-1-abc").map Epic.tasks_done,
        doneCountByEpic s' "ca-1-abc")) = some (some 1, 0) := by decide

def w2Epic : Epic := {
  id := "ca-1-abc", title := "E", status := "in_progress",
  created_at := "t0", updated_at := "t0", complexity_score := none,
  task_count := 1, tasks_done := 0 }

def w2Task : Task := {
  id := "ca-1-abc.1", epic_id := "ca-1-abc", title := "a", status := "in_progress",
  created_at := "t0", updated_at := "t0", started_at := some "t0",
  completed_at := none, depends_on := [], blocked_by := none,
  done_summary := none }

def w2Store : Store := {
  epics := [w2Epic], epicSpecs := ["ca-1-abc"], tasks := [w2Task],
  taskSpecs := ["ca-1-abc.1"], reviewsInit := false, reviews := [] }

/-- C2 witness: completing the only task of a concrete epic leaves the
stored counters equal to the live measures. -/
theorem C2_aggregation_after_mutations_witness :
    (∀ t ∈ w2Store.tasks,
      (strStartsWith ("ca-1-abc" ++ ".") t.id = true ↔ t.epic_id = "ca-1-abc")) ∧
    countsMatchE (stepOr w2Store (cmd_task_done w2Store "ca-1-abc.1" none "t1")) "ca-1-abc" :=
  ⟨by decide,
    (C2_aggregation_after_mutations w2Store "t1" "ca-1-abc" (by decide)).2.2.1
      "ca-1-abc.1" none
      (stepOr w2Store (cmd_task_done w2Store "ca-1-abc.1" none "t1"))
      w2Task (by decide) (by decide) (by decide)⟩

/-! ## C3: task number assignment -/

theorem foldl_taskNumStep_init_le : ∀ (l : List Task) (init : Nat),
    init ≤ l.foldl taskNumStep init
  | [], _ => le_refl _
  | t :: l, init => by
      have h1 : init ≤ taskNumStep init t := by
        unfold taskNumStep
        cases taskNumOfStem t.id
        · exact le_refl _
        · exact le_max_left _ _
      exact le_trans h1 (foldl_taskNumStep_init_le l _)

theorem mem_le_foldl_taskNumStep : ∀ {l : List Task} {t : Task} {n : Nat},
    t ∈ l → taskNumOfStem t.id = some n → ∀ init, n ≤ l.foldl taskNumStep init := by
  intro l
  induction l with
  | nil => intro t n h; cases h
  | cons a l ih =>
      intro t n h hn init
      rcases List.mem_cons.mp h with rfl | hmem
      · have hstep : n ≤ taskNumStep init t := by
          unfold taskNumStep
          rw [hn]
          exact le_max_right _ _
        exact le_trans hstep (foldl_taskNumStep_init_le l _)
      · exact ih hmem hn _

def c3Epic : Epic := {
  id := "ca-1-abc", title := "E", status := "planning",
  created_at := "t0", updated_at := "t0", complexity_score := none,
  task_count := 0, tasks_done := 0 }

def c3Store : Store := {
  epics := [c3Epic], epicSpecs := ["ca-1-abc"], tasks := [],
  taskSpecs := [], reviewsInit := false, reviews := [] }

/-- C3 counterexample: create two tasks, delete the second, create again —
the second and the third creation both yield `ca-1-abc.2`, so the third
task does not get number 3 and the number of a deleted task is reused.
`get_next_task_number` scans only the currently existing files. -/
theorem C3_task_number_reuse_cex :
    (do
      let r1 ← cmd_task_create c3Store "ca-1-abc" "a" "t1"
      let r2 ← cmd_task_create r1.1 "ca-1-abc" "b" "t2"
      let s3 ← cmd_task_delete r2.1 "ca-1-abc.2" "t3"
      let r4 ← cmd_task_create s3 "ca-1-abc" "c" "t4"
      pure (r2.2, r4.2) : Except String (String × String)) =
      Except.ok ("ca-1-abc.2", "ca-1-abc.2") := by decide

/-- C3 amended: a newly assigned task number is `1 +` the maximum number
among the *currently existing* task files of the epic, hence strictly
greater than every current task number (unique within the epic), but a
deleted maximal number is reused. -/
theorem C3_next_task_number_dominates (s : Store) (E : String) (t : Task) (n : Nat)
    (ht : t ∈ epicTaskFiles s E) (hn : taskNumOfStem t.id = some n) :
    n < get_next_task_number s E := by
  unfold get_next_task_number
  have := mem_le_foldl_taskNumStep ht hn 0
  omega

def w3Task : Task := {
  id := "ca-1-abc.7", epic_id := "ca-1-abc", title := "a", status := "pending",
  created_at := "t0", updated_at := "t0", started_at := none,
  completed_at := none, depends_on := [], blocked_by := none,
  done_summary := none }

def w3Store : Store := {
  epics := [c3Epic], epicSpecs := ["ca-1-abc"], tasks := [w3Task],
  taskSpecs := ["ca-1-abc.7"], reviewsInit := false, reviews := [] }

/-- C3 witness: with a single existing task numbered 7, the next number is
greater than 7 (it is 8). -/
theorem C3_next_task_number_dominates_witness :
    w3Task ∈ epicTaskFiles w3Store "ca-1-abc" ∧
    taskNumOfStem w3Task.id = some 7 ∧
    7 < get_next_task_number w3Store "ca-1-abc" :=
  ⟨by decide, by decide,
    C3_next_task_number_dominates w3Store "ca-1-abc" w3Task 7 (by decide) (by decide)⟩

/-! ## C4: terminal statuses -/

def c4Epic : Epic := {
  id := "ca-1-abc", title := "E", status := "done",
  created_at := "t0", updated_at := "t0", complexity_score := none,
  task_count := 1, tasks_done := 1 }

def c4Task : Task := {
  id := "ca-1-abc.1", epic_id := "ca-1-abc", title := "a", status := "done",
  created_at := "t0", updated_at := "t0", started_at := some "t0",
  completed_at := some "t0", depends_on := [], blocked_by := none,
  done_summary := some "did it" }

def c4Store : Store := {
  epics := [c4Epic], epicSpecs := ["ca-1-abc"], tasks := [c4Task],
  taskSpecs := ["ca-1-abc.1"], reviewsInit := false, reviews := [] }

/-- C4 counterexample: `set-status` moves a task whose status is `done`
back to `pending` — the code checks only the vocabulary, never the current
status, so `done` is not terminal as the claim asserts. -/
theorem C4_done_not_terminal_cex :
    (cmd_task_set_status c4Store "ca-1-abc.1" "pending" "t1").toOption.bind
      (fun s' => (findTask s' "ca-1-abc.1").map Task.status) = some "pending" := by decide

/-- C4 amended: the status-changing operations validate only membership of
the target status in the fixed vocabulary and never inspect the current
status; a task or epic in `done` or `cancelled` is moved to any valid
target status by `set-status`. -/
theorem C4_set_status_ignores_current (s : Store) (now : String) :
    (∀ id st t0, findTask s id = some t0 →
      (t0.status = "done" ∨ t0.status = "cancelled") → st ∈ TASK_STATUSES →
      exceptOk (cmd_task_set_status s id st now) = true ∧
      ∀ t ∈ (stepOr s (cmd_task_set_status s id st now)).tasks,
        t.id = id → t.status = st) ∧
    (∀ id st e0, findEpic s id = some e0 →
      (e0.status = "done" ∨ e0.status = "cancelled") → st ∈ EPIC_STATUSES →
      exceptOk (cmd_epic_set_status s id st now) = true ∧
      ∀ e ∈ (stepOr s (cmd_epic_set_status s id st now)).epics,
        e.id = id → e.status = st) := by
  constructor
  · intro id st t0 hft _ hst
    have hrun : cmd_task_set_status s id st now =
        Except.ok (update_epic_task_counts
          { s with tasks := s.tasks.map (fun t =>
              if t.id == id then { t with status := st, updated_at := now } else t) }
          t0.epic_id now) := by
      rw [cmd_task_set_status, if_neg (by simpa using hst), hft]
    constructor
    · rw [hrun]
      rfl
    · intro t ht htid
      rw [hrun] at ht
      simp only [stepOr] at ht
      rw [update_epic_task_counts_tasks] at ht
      simp only [List.mem_map] at ht
      obtain ⟨u, _, hmap⟩ := ht
      by_cases hui : u.id == id
      · rw [if_pos hui] at hmap
        rw [← hmap]
      · rw [if_neg hui] at hmap
        rw [← hmap] at htid
        exact absurd htid (by simpa using hui)
  · intro id st e0 hfe _ hst
    have hne : (findEpic s id).isNone = false := by rw [hfe]; rfl
    have hrun : cmd_epic_set_status s id st now =
        Except.ok { s with epics := s.epics.map (fun e =>
            if e.id == id then { e with status := st, updated_at := now } else e) } := by
      rw [cmd_epic_set_status, if_neg (by simpa using hst), if_neg (by simp [hne])]
    constructor
    · rw [hrun]
      rfl
    · intro e he heid
      rw [hrun] at he
      simp only [stepOr] at he
      simp only [List.mem_map] at he
      obtain ⟨u, _, hmap⟩ := he
      by_cases hui : u.id == id
      · rw [if_pos hui] at hmap
        rw [← hmap]
      · rw [if_neg hui] at hmap
        rw [← hmap] at heid
        exact absurd heid (by simpa using hui)

/-- C4 witness: the amended statement applied to a concrete done task. -/
theorem C4_set_status_ignores_current_witness :
    findTask c4Store "ca-1-abc.1" = some c4Task ∧
    (exceptOk (cmd_task_set_status c4Store "ca-1-abc.1" "pending" "t1") = true ∧
     ∀ t ∈ (stepOr c4Store (cmd_task_set_status c4Store "ca-1-abc.1" "pending" "t1")).tasks,
       t.id = "ca-1-abc.1" → t.status = "pending") :=
  ⟨by decide,
    (C4_set_status_ignores_current c4Store "t1").1 "ca-1-abc.1" "pending" c4Task
      (by decide) (Or.inl (by decide)) (by decide)⟩

/-! ## C5: start always restamps started_at -/

/-- C5: `task start` on any existing task — whatever its current status or
previous `started_at` — succeeds, sets `in_progress` and overwrites
`started_at` and `updated_at` with the current time. -/
theorem C5_start_overwrites_started_at (s : Store) (id now : String) (t0 : Task)
    (h : findTask s id = some t0) :
    exceptOk (cmd_task_start s id now) = true ∧
    ∀ t ∈ (stepOr s (cmd_task_start s id now)).tasks, t.id = id →
      t.status = "in_progress" ∧ t.started_at = some now ∧ t.updated_at = now := by
  have hne : (findTask s id).isNone = false := by
    rw [h]
    rfl
  have hrun : cmd_task_start s id now = Except.ok { s with tasks := s.tasks.map (fun t =>
      if t.id == id then
        { t with status := "in_progress", started_at := some now, updated_at := now }
      else t) } := by
    rw [cmd_task_start, if_neg (by simp [hne])]
  constructor
  · rw [hrun]
    rfl
  · intro t ht htid
    rw [hrun] at ht
    simp only [stepOr] at ht
    simp only [List.mem_map] at ht
    obtain ⟨u, _, hmap⟩ := ht
    by_cases hui : u.id == id
    · rw [if_pos hui] at hmap
      rw [← hmap]
      exact ⟨rfl, rfl, rfl⟩
    · rw [if_neg hui] at hmap
      rw [← hmap] at htid
      exact absurd htid (by simpa using hui)

def w5Task : Task := {
  id := "ca-1-abc.1", epic_id := "ca-1-abc", title := "a", status := "blocked",
  created_at := "t0", updated_at := "t2", started_at := some "t1",
  completed_at := none, depends_on := [], blocked_by := some "stuck",
  done_summary := none }

def w5Store : Store := {
  epics := [], epicSpecs := [], tasks := [w5Task],
  taskSpecs := ["ca-1-abc.1"], reviewsInit := false, reviews := [] }

/-- C5 witness: restarting a task that was already started before replaces
its old `started_at` stamp. -/
theorem C5_start_overwrites_started_at_witness :
    findTask w5Store "ca-1-abc.1" = some w5Task ∧
    w5Task.started_at = some "t1" ∧
    (exceptOk (cmd_task_start w5Store "ca-1-abc.1" "t9") = true ∧
     ∀ t ∈ (stepOr w5Store (cmd_task_start w5Store "ca-1-abc.1" "t9")).tasks,
       t.id = "ca-1-abc.1" →
         t.status = "in_progress" ∧ t.started_at = some "t9" ∧ t.updated_at = "t9") :=
  ⟨by decide, by decide,
    C5_start_overwrites_started_at w5Store "ca-1-abc.1" "t9" w5Task (by decide)⟩

/-! ## C6: invalid status is rejected without touching the store -/

/-- C6: a status outside the respective entity's fixed vocabulary makes
that entity's `set-status` fail with the invalid-status error before
anything is read or written; the persisted store after the failed
invocation is exactly the prior store.  The two vocabularies are
independent: a string may be valid for epics yet invalid for tasks (such
as `ready`) and conversely (such as `pending`). -/
theorem C6_invalid_status_rejected_unchanged (s : Store) (id st now : String) :
    (st ∉ TASK_STATUSES →
      cmd_task_set_status s id st now =
        Except.error ("Invalid status. Must be one of: " ++ String.intercalate ", " TASK_STATUSES) ∧
      stepOr s (cmd_task_set_status s id st now) = s) ∧
    (st ∉ EPIC_STATUSES →
      cmd_epic_set_status s id st now =
        Except.error ("Invalid status. Must be one of: " ++ String.intercalate ", " EPIC_STATUSES) ∧
      stepOr s (cmd_epic_set_status s id st now) = s) := by
  constructor
  · intro hst
    have h1 : cmd_task_set_status s id st now =
        Except.error ("Invalid status. Must be one of: " ++ String.intercalate ", " TASK_STATUSES) := by
      rw [cmd_task_set_status, if_pos (by simpa using hst)]
    refine ⟨h1, ?_⟩
    rw [h1]
    rfl
  · intro hse
    have h2 : cmd_epic_set_status s id st now =
        Except.error ("Invalid status. Must be one of: " ++ String.intercalate ", " EPIC_STATUSES) := by
      rw [cmd_epic_set_status, if_pos (by simpa using hse)]
    refine ⟨h2, ?_⟩
    rw [h2]
    rfl

/-- C6 witness: `ready` is a valid epic status but not a task status, and
`pending` a valid task status but not an epic status; each is rejected by
the other entity's `set-status` on a concrete store, leaving it as it was. -/
theorem C6_invalid_status_rejected_unchanged_witness :
    "ready" ∉ TASK_STATUSES ∧ "pending" ∉ EPIC_STATUSES ∧
    (cmd_task_set_status c4Store "ca-1-abc.1" "ready" "t1" =
      Except.error ("Invalid status. Must be one of: " ++ String.intercalate ", " TASK_STATUSES) ∧
     stepOr c4Store (cmd_task_set_status c4Store "ca-1-abc.1" "ready" "t1") = c4Store) ∧
    (cmd_epic_set_status c4Store "ca-1-abc" "pending" "t1" =
      Except.error ("Invalid status. Must be one of: " ++ String.intercalate ", " EPIC_STATUSES) ∧
     stepOr c4Store (cmd_epic_set_status c4Store "ca-1-abc" "pending" "t1") = c4Store) :=
  ⟨by decide, by decide,
    (C6_invalid_status_rejected_unchanged c4Store "ca-1-abc.1" "ready" "t1").1 (by decide),
    (C6_invalid_status_rejected_unchanged c4Store "ca-1-abc" "pending" "t1").2 (by decide)⟩

/-! ## C10: frame of task done -/

/-- C10: completing an existing task rewrites exactly `status`,
`completed_at`, `updated_at` and — only for a truthy summary — 
`done_summary`; every other field keeps the prior record value, and a
completion without a summary keeps the previously recorded `done_summary`.
Tasks with other ids are untouched. -/
theorem C10_done_frame (s : Store) (id : String) (summ : Option String) (now : String)
    (t0 : Task) (h : findTask s id = some t0) :
    exceptOk (cmd_task_done s id summ now) = true ∧
    (∀ t ∈ (stepOr s (cmd_task_done s id summ now)).tasks, t.id = id →
      t.status = "done" ∧ t.completed_at = some now ∧ t.updated_at = now ∧
      t.id = t0.id ∧ t.epic_id = t0.epic_id ∧ t.title = t0.title ∧
      t.created_at = t0.created_at ∧ t.started_at = t0.started_at ∧
      t.depends_on = t0.depends_on ∧ t.blocked_by = t0.blocked_by ∧
      t.done_summary = (if optStrTruthy summ then summ else t0.done_summary)) ∧
    (∀ t ∈ s.tasks, t.id ≠ id → t ∈ (stepOr s (cmd_task_done s id summ now)).tasks) := by
  have hrun : cmd_task_done s id summ now = Except.ok (update_epic_task_counts
      { s with tasks := s.tasks.map (fun t => if t.id == id then
          { t0 with
            status := "done", completed_at := some now, updated_at := now,
            done_summary := if optStrTruthy summ then summ else t0.done_summary }
        else t) }
      t0.epic_id now) := by
    rw [cmd_task_done, h]
  refine ⟨?_, ?_, ?_⟩
  · rw [hrun]
    rfl
  · intro t ht htid
    rw [hrun] at ht
    simp only [stepOr] at ht
    rw [update_epic_task_counts_tasks] at ht
    simp only [List.mem_map] at ht
    obtain ⟨u, _, hmap⟩ := ht
    by_cases hui : u.id == id
    · rw [if_pos hui] at hmap
      rw [← hmap]
      exact ⟨rfl, rfl, rfl, rfl, rfl, rfl, rfl, rfl, rfl, rfl, rfl⟩
    · rw [if_neg hui] at hmap
      rw [← hmap] at htid
      exact absurd htid (by simpa using hui)
  · intro t ht htne
    rw [hrun]
    simp only [stepOr]
    rw [update_epic_task_counts_tasks]
    refine List.mem_map.mpr ⟨t, ht, ?_⟩
    rw [if_neg (by simpa using htne)]

def w10Task : Task := {
  id := "ca-1-abc.1", epic_id := "ca-1-abc", title := "a", status := "in_progress",
  created_at := "t0", updated_at := "t1", started_at := some "t1",
  completed_at := none, depends_on := ["ca-1-abc.9"], blocked_by := some "why",
  done_summary := some "old summary" }

def w10Store : Store := {
  epics := [], epicSpecs := [], tasks := [w10Task],
  taskSpecs := ["ca-1-abc.1"], reviewsInit := false, reviews := [] }

/-- C10 witness: completing without a summary keeps the old `done_summary`
and all frame fields on a concrete task. -/
theorem C10_done_frame_witness :
    findTask w10Store "ca-1-abc.1" = some w10Task ∧
    (∀ t ∈ (stepOr w10Store (cmd_task_done w10Store "ca-1-abc.1" none "t9")).tasks,
      t.id = "ca-1-abc.1" →
      t.status = "done" ∧ t.completed_at = some "t9" ∧ t.updated_at = "t9" ∧
      t.id = w10Task.id ∧ t.epic_id = w10Task.epic_id ∧ t.title = w10Task.title ∧
      t.created_at = w10Task.created_at ∧ t.started_at = w10Task.started_at ∧
      t.depends_on = w10Task.depends_on ∧ t.blocked_by = w10Task.blocked_by ∧
      t.done_summary = (if optStrTruthy none then none else w10Task.done_summary)) :=
  ⟨by decide,
    (C10_done_frame w10Store "ca-1-abc.1" none "t9" w10Task (by decide)).2.1⟩

/-! ## C8: epic delete cascades -/

/-- C8: deleting an existing epic removes the epic record, its spec, and
every task record and task spec whose id extends the epic id by a dot;
afterwards show and cat for any of them report not-found.  Deleting a
missing epic fails with not-found. -/
theorem C8_epic_delete_cascades (s : Store) (E : String) :
    ((findEpic s E).isSome = true →
      exceptOk (cmd_epic_delete s E) = true ∧
      cmd_epic_show (stepOr s (cmd_epic_delete s E)) E =
        Except.error ("Epic not found: " ++ E) ∧
      cmd_epic_cat (stepOr s (cmd_epic_delete s E)) E =
        Except.error ("Epic spec not found: " ++ E) ∧
      (∀ tid, strStartsWith (E ++ ".") tid = true →
        cmd_task_show (stepOr s (cmd_epic_delete s E)) tid =
          Except.error ("Task not found: " ++ tid) ∧
        cmd_task_cat (stepOr s (cmd_epic_delete s E)) tid =
          Except.error ("Task spec not found: " ++ tid))) ∧
    (findEpic s E = none → cmd_epic_delete s E = Except.error ("Epic not found: " ++ E)) := by
  constructor
  · intro hsome
    have hne : (findEpic s E).isNone = false := by
      cases hfe : findEpic s E
      · rw [hfe] at hsome
        simp at hsome
      · rfl
    have hrun : cmd_epic_delete s E = Except.ok { s with
        epics := s.epics.filter (fun e => !(e.id == E)),
        epicSpecs := s.epicSpecs.filter (fun x => !(x == E)),
        tasks := s.tasks.filter (fun t => !(strStartsWith (E ++ ".") t.id)),
        taskSpecs := s.taskSpecs.filter (fun x => !(strStartsWith (E ++ ".") x)) } := by
      rw [cmd_epic_delete, if_neg (by simp [hne])]
    refine ⟨by rw [hrun]; rfl, ?_, ?_, ?_⟩
    · have hfind : findEpic (stepOr s (cmd_epic_delete s E)) E = none := by
        rw [hrun]
        simp only [stepOr]
        unfold findEpic
        rw [List.find?_eq_none]
        intro x hx
        have hpred := (List.mem_filter.mp hx).2
        simp only [Bool.not_eq_eq_eq_not, Bool.not_true] at hpred
        simp [hpred]
      unfold cmd_epic_show
      rw [hfind]
    · have hmem : E ∉ (stepOr s (cmd_epic_delete s E)).epicSpecs := by
        rw [hrun]
        simp only [stepOr]
        intro hmem
        have hpred := (List.mem_filter.mp hmem).2
        simp at hpred
      unfold cmd_epic_cat
      rw [if_neg (by simpa using hmem)]
    · intro tid hpre
      constructor
      · have hfind : findTask (stepOr s (cmd_epic_delete s E)) tid = none := by
          rw [hrun]
          simp only [stepOr]
          unfold findTask
          rw [List.find?_eq_none]
          intro x hx hbeq
          have hpred := (List.mem_filter.mp hx).2
          have hxid : x.id = tid := by simpa using hbeq
          rw [hxid, hpre] at hpred
          simp at hpred
        unfold cmd_task_show
        rw [hfind]
      · have hmem : tid ∉ (stepOr s (cmd_epic_delete s E)).taskSpecs := by
          rw [hrun]
          simp only [stepOr]
          intro hmem
          have hpred := (List.mem_filter.mp hmem).2
          rw [hpre] at hpred
          simp at hpred
        unfold cmd_task_cat
        rw [if_neg (by simpa using hmem)]
  · intro hnone
    rw [cmd_epic_delete, if_pos (by simp [hnone])]

def w8Epic : Epic := {
  id := "ca-1-abc", title := "E", status := "in_progress",
  created_at := "t0", updated_at := "t0", complexity_score := none,
  task_count := 2, tasks_done := 0 }

def w8Task1 : Task := {
  id := "ca-1-abc.1", epic_id := "ca-1-abc", title := "a", status := "pending",
  created_at := "t0", updated_at := "t0", started_at := none,
  completed_at := none, depends_on := [], blocked_by := none, done_summary := none }

def w8Task2 : Task := {
  id := "ca-1-abc.2", epic_id := "ca-1-abc", title := "b", status := "done",
  created_at := "t0", updated_at := "t0", started_at := none,
  completed_at := some "t0", depends_on := [], blocked_by := none, done_summary := none }

def w8Store : Store := {
  epics := [w8Epic], epicSpecs := ["ca-1-abc"], tasks := [w8Task1, w8Task2],
  taskSpecs := ["ca-1-abc.1", "ca-1-abc.2"], reviewsInit := false, reviews := [] }

/-- C8 witness: deleting a concrete epic with two tasks makes the epic, its
spec, and all its task records and specs unavailable. -/
theorem C8_epic_delete_cascades_witness :
    exceptOk (cmd_epic_delete w8Store "ca-1-abc") = true ∧
    cmd_epic_show (stepOr w8Store (cmd_epic_delete w8Store "ca-1-abc")) "ca-1-abc" =
      Except.error ("Epic not found: " ++ "ca-1-abc") ∧
    cmd_epic_cat (stepOr w8Store (cmd_epic_delete w8Store "ca-1-abc")) "ca-1-abc" =
      Except.error ("Epic spec not found: " ++ "ca-1-abc") ∧
    (∀ tid, strStartsWith ("ca-1-abc" ++ ".") tid = true →
      cmd_task_show (stepOr w8Store (cmd_epic_delete w8Store "ca-1-abc")) tid =
        Except.error ("Task not found: " ++ tid) ∧
      cmd_task_cat (stepOr w8Store (cmd_epic_delete w8Store "ca-1-abc")) tid =
        Except.error ("Task spec not found: " ++ tid)) :=
  (C8_epic_delete_cascades w8Store "ca-1-abc").1 (by decide)

/-! ## C9: review iteration numbering -/

/-- The receipt `cmd_review_log` writes for task `tid` (epic part `ep`),
verdict `v`, notes `n`, timestamp `ts`, at iteration `i`. -/
def mkC9 (tid ep v : String) (n : Option String) (ts : String) (i : Nat) : Receipt := {
  key := tid ++ "-" ++ safeTs ts, task_id := tid, epic_id := ep,
  verdict := upperStr v, reviewer := "qa-auditor", timestamp := ts,
  notes := n.getD "", iteration := i }

theorem putReceipt_fresh {rs : List Receipt} {r : Receipt}
    (h : ∀ x ∈ rs, x.key ≠ r.key) : putReceipt rs r = rs ++ [r] := by
  have hany : rs.any (fun x => x.key == r.key) = false := by
    rw [List.any_eq_false]
    intro x hx
    simpa using h x hx
  unfold putReceipt
  rw [hany]
  rfl

/-- Computing `get_review_iteration` on a store whose receipts all match the task's
filename pattern is the receipt count plus one. -/
theorem iter_of_all (s : Store) (L : List Receipt) (tid : String)
    (hinit : s.reviewsInit = true)
    (hall : ∀ r ∈ L, strStartsWith (tid ++ "-") r.key = true) :
    get_review_iteration { s with reviews := L } tid = L.length + 1 := by
  rw [get_review_iteration, if_neg (by simp [hinit])]
  show (List.filter _ L).length + 1 = L.length + 1
  rw [List.filter_eq_self.mpr hall]

/-- C9: from a fresh review store, logging three verdicts for the same task
(at distinct timestamps) records iterations 1, 2 and 3 — each receipt's
iteration is the count of the receipts already present for that task plus
one — and `review count` then prints 4, the next iteration. -/
theorem C9_review_iterations (s : Store) (tid ep v1 v2 v3 ts1 ts2 ts3 : String)
    (n1 n2 n3 : Option String) (k : Nat)
    (hinit : s.reviewsInit = true) (hempty : s.reviews = [])
    (hparse : parse_id tid = some (ParsedId.task ep k))
    (hv1 : upperStr v1 ∈ REVIEW_VERDICTS) (hv2 : upperStr v2 ∈ REVIEW_VERDICTS)
    (hv3 : upperStr v3 ∈ REVIEW_VERDICTS)
    (h12 : safeTs ts1 ≠ safeTs ts2) (h13 : safeTs ts1 ≠ safeTs ts3)
    (h23 : safeTs ts2 ≠ safeTs ts3) :
    cmd_review_log s tid v1 n1 ts1 =
      Except.ok { s with reviews := [mkC9 tid ep v1 n1 ts1 1] } ∧
    cmd_review_log { s with reviews := [mkC9 tid ep v1 n1 ts1 1] } tid v2 n2 ts2 =
      Except.ok { s with reviews := [mkC9 tid ep v1 n1 ts1 1, mkC9 tid ep v2 n2 ts2 2] } ∧
    cmd_review_log { s with reviews := [mkC9 tid ep v1 n1 ts1 1, mkC9 tid ep v2 n2 ts2 2] }
        tid v3 n3 ts3 =
      Except.ok { s with reviews := [mkC9 tid ep v1 n1 ts1 1, mkC9 tid ep v2 n2 ts2 2,
        mkC9 tid ep v3 n3 ts3 3] } ∧
    ({ s with reviews := [mkC9 tid ep v1 n1 ts1 1, mkC9 tid ep v2 n2 ts2 2,
        mkC9 tid ep v3 n3 ts3 3] } : Store).reviews.map Receipt.iteration = [1, 2, 3] ∧
    cmd_review_count { s with reviews := [mkC9 tid ep v1 n1 ts1 1, mkC9 tid ep v2 n2 ts2 2,
        mkC9 tid ep v3 n3 ts3 3] } tid = "4" := by
  have hkey : ∀ ts : String, strStartsWith (tid ++ "-") (tid ++ "-" ++ safeTs ts) = true :=
    fun ts => strStartsWith_self_append (tid ++ "-") (safeTs ts)
  have hne : ∀ a b : String, safeTs a ≠ safeTs b →
      tid ++ "-" ++ safeTs a ≠ tid ++ "-" ++ safeTs b :=
    fun a b hab heq => hab (strAppend_left_cancel heq)
  refine ⟨?_, ?_, ?_, rfl, ?_⟩
  · rw [cmd_review_log, if_neg (by simp [hinit]), if_neg (by simpa using hv1), hparse]
    have hit : get_review_iteration s tid = 1 := by
      rw [get_review_iteration, if_neg (by simp [hinit]), hempty]
      rfl
    rw [hit, hempty]
    rfl
  · rw [cmd_review_log, if_neg (by simp [hinit]), if_neg (by simpa using hv2), hparse]
    rw [iter_of_all s [mkC9 tid ep v1 n1 ts1 1] tid hinit
      (by intro r hr; rw [List.mem_singleton.mp hr]; exact hkey ts1)]
    show Except.ok { s with
      reviews := putReceipt [mkC9 tid ep v1 n1 ts1 1] (mkC9 tid ep v2 n2 ts2 2) } = _
    rw [putReceipt_fresh (by
      intro x hx
      rw [List.mem_singleton.mp hx]
      exact hne ts1 ts2 h12)]
    rfl
  · rw [cmd_review_log, if_neg (by simp [hinit]), if_neg (by simpa using hv3), hparse]
    rw [iter_of_all s [mkC9 tid ep v1 n1 ts1 1, mkC9 tid ep v2 n2 ts2 2] tid hinit (by
      intro r hr
      rcases List.mem_cons.mp hr with rfl | hr2
      · exact hkey ts1
      · rw [List.mem_singleton.mp hr2]
        exact hkey ts2)]
    show Except.ok { s with
      reviews := putReceipt [mkC9 tid ep v1 n1 ts1 1, mkC9 tid ep v2 n2 ts2 2]
        (mkC9 tid ep v3 n3 ts3 3) } = _
    rw [putReceipt_fresh (by
      intro x hx
      rcases List.mem_cons.mp hx with rfl | hx2
      · exact hne ts1 ts3 h13
      · rw [List.mem_singleton.mp hx2]
        exact hne ts2 ts3 h23)]
    rfl
  · rw [cmd_review_count, if_neg (by simp [hinit])]
    rw [iter_of_all s [mkC9 tid ep v1 n1 ts1 1, mkC9 tid ep v2 n2 ts2 2,
      mkC9 tid ep v3 n3 ts3 3] tid hinit (by
      intro r hr
      rcases List.mem_cons.mp hr with rfl | hr2
      · exact hkey ts1
      rcases List.mem_cons.mp hr2 with rfl | hr3
      · exact hkey ts2
      · rw [List.mem_singleton.mp hr3]
        exact hkey ts3)]
    show toString (4 : Nat) = "4"
    decide

def w9Store : Store := {
  epics := [], epicSpecs := [], tasks := [], taskSpecs := [],
  reviewsInit := true, reviews := [] }

/-- C9 witness: three concrete verdicts at distinct timestamps on the task
`ca-1-abc.1` of a fresh review store. -/
theorem C9_review_iterations_witness :
    cmd_review_log w9Store "ca-1-abc.1" "SHIP" none "t1" = Except.ok { w9Store with
      reviews := [mkC9 "ca-1-abc.1" "ca-1-abc" "SHIP" none "t1" 1] } ∧
    cmd_review_log { w9Store with reviews := [mkC9 "ca-1-abc.1" "ca-1-abc" "SHIP" none "t1" 1] }
        "ca-1-abc.1" "NEEDS_WORK" none "t2" = Except.ok { w9Store with
      reviews := [mkC9 "ca-1-abc.1" "ca-1-abc" "SHIP" none "t1" 1,
        mkC9 "ca-1-abc.1" "ca-1-abc" "NEEDS_WORK" none "t2" 2] } ∧
    cmd_review_log { w9Store with reviews := [mkC9 "ca-1-abc.1" "ca-1-abc" "SHIP" none "t1" 1,
        mkC9 "ca-1-abc.1" "ca-1-abc" "NEEDS_WORK" none "t2" 2] }
        "ca-1-abc.1" "SHIP" none "t3" = Except.ok { w9Store with
      reviews := [mkC9 "ca-1-abc.1" "ca-1-abc" "SHIP" none "t1" 1,
        mkC9 "ca-1-abc.1" "ca-1-abc" "NEEDS_WORK" none "t2" 2,
        mkC9 "ca-1-abc.1" "ca-1-abc" "SHIP" none "t3" 3] } ∧
    ({ w9Store with reviews := [mkC9 "ca-1-abc.1" "ca-1-abc" "SHIP" none "t1" 1,
        mkC9 "ca-1-abc.1" "ca-1-abc" "NEEDS_WORK" none "t2" 2,
        mkC9 "ca-1-abc.1" "ca-1-abc" "SHIP" none "t3" 3] } : Store).reviews.map
      Receipt.iteration = [1, 2, 3] ∧
    cmd_review_count { w9Store with reviews := [mkC9 "ca-1-abc.1" "ca-1-abc" "SHIP" none "t1" 1,
        mkC9 "ca-1-abc.1" "ca-1-abc" "NEEDS_WORK" none "t2" 2,
        mkC9 "ca-1-abc.1" "ca-1-abc" "SHIP" none "t3" 3] } "ca-1-abc.1" = "4" :=
  C9_review_iterations w9Store "ca-1-abc.1" "ca-1-abc" "SHIP" "NEEDS_WORK" "SHIP"
    "t1" "t2" "t3" none none none 1 (by decide) (by decide) (by decide)
    (by decide) (by decide) (by decide) (by decide) (by decide) (by decide)

/-! ## C7: the prioritizer -/

theorem find_inprog_eq_head (l : List Task) :
    ((sortTasksById l).find? (fun t => t.status == "in_progress")).map (fun t => t.id)
      = (((l.filter (fun t => t.status == "in_progress")).map
          (fun t => t.id)).mergeSort strLe).head? := by
  unfold sortTasksById
  exact mergeSort_find_map (fun t => t.id) l _

theorem find_planning_eq_head (l : List Epic) :
    ((sortEpicsById l).find? (fun e => e.status == "planning")).map (fun e => e.id)
      = (((l.filter (fun e => e.status == "planning")).map
          (fun e => e.id)).mergeSort strLe).head? := by
  unfold sortEpicsById
  exact mergeSort_find_map (fun e => e.id) l _

/-- The inner scan of `cmd_next` tier 2 finds, projected to the id, exactly
the head of the resolver's ready list for that epic. -/
theorem find_ready_eq_head (s : Store) (eid : String) :
    ((sortTasksById (epicTaskFiles s eid)).find?
      (fun t => t.status == "pending" && depsResolved (epicTaskFiles s eid) t)).map
      (fun t => t.id) = (cmd_task_ready s eid).head? := by
  unfold sortTasksById cmd_task_ready
  exact mergeSort_find_map (fun t => t.id) (epicTaskFiles s eid) _

/-- The guarded scan of `cmd_next` tier 2 equals the spec-side scan over
the eligibility-filtered epic list. -/
theorem scan_eq (s : Store) : ∀ es : List Epic,
    findReadyInEpics s es = readyEpicScan s
      (es.filter (fun e => e.status == "ready" || e.status == "in_progress")) := by
  intro es
  induction es with
  | nil => rfl
  | cons e rest ih =>
      rw [List.filter_cons]
      by_cases he : (e.status == "ready" || e.status == "in_progress") = true
      · rw [if_pos he]
        simp only [findReadyInEpics, readyEpicScan]
        rw [if_pos he]
        have hh := find_ready_eq_head s e.id
        cases hfind : (sortTasksById (epicTaskFiles s e.id)).find?
            (fun t => t.status == "pending" && depsResolved (epicTaskFiles s e.id) t) with
        | some t =>
            rw [hfind] at hh
            rw [← hh]
            rfl
        | none =>
            rw [hfind] at hh
            rw [← hh]
            exact ih
      · rw [if_neg he]
        simp only [findReadyInEpics]
        rw [if_neg he]
        exact ih

/-- C7: `cmd_next` computes exactly the spec's tiered precedence — first
in-progress task in id order, else first resolver-ready task scanning
eligible epics in id order, else first planning epic, else nothing.  The
function reads the store and returns an answer without writing. -/
theorem C7_next_refines_tiered_policy (s : Store)
    (hT : ∀ t ∈ s.tasks, strStartsWith "ca-" t.id = true)
    (hE : ∀ e ∈ s.epics, strStartsWith "ca-" e.id = true) :
    cmd_next s = nextSpec s := by
  have hcaT : caTasks s.tasks = s.tasks := List.filter_eq_self.mpr hT
  have hcaE : caEpics s.epics = s.epics := List.filter_eq_self.mpr hE
  rw [cmd_next, nextSpec, hcaT, hcaE]
  have h1 := find_inprog_eq_head s.tasks
  cases hfind : (sortTasksById s.tasks).find? (fun t => t.status == "in_progress") with
  | some t =>
      rw [hfind] at h1
      rw [← h1]
      rfl
  | none =>
      rw [hfind] at h1
      rw [← h1]
      rw [scan_eq s (sortEpicsById s.epics)]
      cases hscan : readyEpicScan s ((sortEpicsById s.epics).filter
          (fun e => e.status == "ready" || e.status == "in_progress")) with
      | some tid => rfl
      | none =>
          have h3 := find_planning_eq_head s.epics
          cases hfind3 : (sortEpicsById s.epics).find? (fun e => e.status == "planning") with
          | some e =>
              rw [hfind3] at h3
              rw [← h3]
              rfl
          | none =>
              rw [hfind3] at h3
              rw [← h3]
              rfl

def w7Epic1 : Epic := {
  id := "ca-1-abc", title := "A", status := "ready",
  created_at := "t0", updated_at := "t0", complexity_score := none,
  task_count := 1, tasks_done := 0 }

def w7Epic2 : Epic := {
  id := "ca-2-def", title := "B", status := "planning",
  created_at := "t0", updated_at := "t0", complexity_score := none,
  task_count := 0, tasks_done := 0 }

def w7Task : Task := {
  id := "ca-1-abc.1", epic_id := "ca-1-abc", title := "a", status := "pending",
  created_at := "t0", updated_at := "t0", started_at := none,
  completed_at := none, depends_on := [], blocked_by := none, done_summary := none }

def w7Store : Store := {
  epics := [w7Epic1, w7Epic2], epicSpecs := ["ca-1-abc", "ca-2-def"],
  tasks := [w7Task], taskSpecs := ["ca-1-abc.1"],
  reviewsInit := false, reviews := [] }

/-- C7 witness: the hypotheses hold on a concrete two-epic store and the
prioritizer agrees with the spec-side policy there. -/
theorem C7_next_refines_tiered_policy_witness :
    (∀ t ∈ w7Store.tasks, strStartsWith "ca-" t.id = true) ∧
    (∀ e ∈ w7Store.epics, strStartsWith "ca-" e.id = true) ∧
    cmd_next w7Store = nextSpec w7Store :=
  ⟨by decide, by decide, C7_next_refines_tiered_policy w7Store (by decide) (by decide)⟩

end Taskctl
